import Mathlib

/-!
Verification of the wtypes runtime type/schema engine (deathbeds/webtypes).

The embedding models the schema documents of wtypes as JSON values
(association lists of constraint keys), the metaclass type algebra of
src/wtypes/base.py (schema merging, create, the composition operators), and
the guarded container mutations (Dict setitem, List append/insert/pop).

The validation engine itself lives in the external jsonschema library,
invoked through the validate_object and validate_type hooks
(base.py lines 41 to 59); the engine is therefore modelled from the
specification text (ValidationEngine, spec section 4.3), parameterized over
the two external collaborators it consumes: the string-format validator and
the regular-expression search. The meta-schema validator is likewise kept
abstract as a Boolean-valued parameter wherever possible.
-/

set_option autoImplicit false

/-- A JSON value. Schema documents and validated instances are both JSON
values; a document is an association list of constraint keys. Numbers are
split into integers and rationals (JSON has no floats in the abstract;
rationals model the numeric comparisons of draft 7 exactly). -/
inductive SVal : Type where
  | null : SVal
  | bool : Bool → SVal
  | int : Int → SVal
  | num : Rat → SVal
  | str : String → SVal
  | arr : List SVal → SVal
  | obj : List (String × SVal) → SVal

/-- First value bound to a key in an association list (Python dict lookup;
documents built by the library never carry duplicate keys). -/
def lookupKey (k : String) : List (String × SVal) → Option SVal
  | [] => none
  | kv :: rest => if kv.1 = k then some kv.2 else lookupKey k rest

/-- Key membership in an association list. -/
def hasKey (k : String) (l : List (String × SVal)) : Bool :=
  l.any (fun kv => kv.1 == k)

/-- The keys of an association list, in insertion order. -/
def keysOf (l : List (String × SVal)) : List String :=
  l.map Prod.fst

/-- One step of Python dict update: if the key exists its value is replaced
in place, otherwise the pair is appended. -/
def setKey (a : List (String × SVal)) (kv : String × SVal) : List (String × SVal) :=
  if hasKey kv.1 a then a.map (fun x => if x.1 = kv.1 then (x.1, kv.2) else x)
  else a ++ [kv]

/-- Python dict update of a with b: key-wise, the b value replaces the a
value for every key present in b; new keys are appended in order. This is
the whole merge rule of the source: munch.Munch.update is dict.update
(base.py lines 116 to 121 and 136). -/
def schemaUpdate (a b : List (String × SVal)) : List (String × SVal) :=
  b.foldl setKey a

mutual
/-- Deep structural equality of JSON values; integral and rational numbers
compare by value, as in JSON. Used by the enum, const and uniqueItems
clauses of the engine. -/
def jsonEq : SVal → SVal → Bool
  | .null, .null => true
  | .bool a, .bool b => a == b
  | .int a, .int b => a == b
  | .num a, .num b => a == b
  | .int a, .num b => ((a : Rat) == b)
  | .num a, .int b => (a == (b : Rat))
  | .str a, .str b => a == b
  | .arr a, .arr b => jsonEqArr a b
  | .obj a, .obj b => jsonEqObj a b
  | _, _ => false

def jsonEqArr : List SVal → List SVal → Bool
  | [], [] => true
  | a :: as, b :: bs => jsonEq a b && jsonEqArr as bs
  | _, _ => false

def jsonEqObj : List (String × SVal) → List (String × SVal) → Bool
  | [], [] => true
  | (k, a) :: as, (l, b) :: bs => k == l && jsonEq a b && jsonEqObj as bs
  | _, _ => false
end

/-- Python truthiness of a JSON value (used by the guard on items in
List._verify_item, base.py line 869). -/
def isFalsy : SVal → Bool
  | .null => true
  | .bool b => !b
  | .int n => n == 0
  | .num q => q == 0
  | .str s => s.isEmpty
  | .arr l => l.isEmpty
  | .obj l => l.isEmpty

/-- Numeric view of a JSON value; booleans are not numbers. -/
def asQ : SVal → Option Rat
  | .int n => some (n : Rat)
  | .num q => some q
  | _ => none

/-- Zero fractional part (the draft 7 reading of the integer simple type). -/
def isIntegral : SVal → Bool
  | .int _ => true
  | .num q => q.den == 1
  | _ => false

/-- Modelled from the spec: the simple-type check of the ValidationEngine
(spec section 4.3 item 4): the runtime kind of the value must match the
declared simple type; integer additionally requires zero fractional part. -/
def typeMatches (t : String) (v : SVal) : Bool :=
  match t with
  | "null" => match v with | .null => true | _ => false
  | "boolean" => match v with | .bool _ => true | _ => false
  | "object" => match v with | .obj _ => true | _ => false
  | "array" => match v with | .arr _ => true | _ => false
  | "string" => match v with | .str _ => true | _ => false
  | "number" => match v with | .int _ => true | .num _ => true | _ => false
  | "integer" => isIntegral v
  | _ => false

/-- The two external collaborators the engine consumes (spec sections 1
and 6): the string-format validator, as a partial map from format names to
checkers (none means the format name is not recognized), and the
regular-expression search used by pattern and patternProperties. -/
structure Collabs where
  fmt : String → Option (String → Bool)
  search : String → String → Bool

/-- Pairwise structural inequality (the uniqueItems clause). -/
def pairwiseDistinct : List SVal → Bool
  | [] => true
  | x :: xs => xs.all (fun y => !(jsonEq x y)) && pairwiseDistinct xs

/-- Position-wise validation for a list-shaped items schema: element i must
satisfy schema i while i is below the length of the schema list; elements
beyond it are governed by the separate additionalItems clause. -/
def itemsPositional (rec : SVal → SVal → Bool) : List SVal → List SVal → Bool
  | _, [] => true
  | [], _ => true
  | s :: ss, e :: es => rec s e && itemsPositional rec ss es

/-- Modelled from the spec: one constraint clause of the ValidationEngine
(spec section 4.3). In the source the engine is the external jsonschema
library reached through the validate_object hook (base.py lines 51 to 58),
which is not under src, so the dispatch is embedded from the spec text.
rec validates a value against a nested sub-document; fields is the whole
surrounding document (needed by additionalProperties and additionalItems);
keys outside the constraint vocabulary impose nothing. -/
def checkClause (c : Collabs) (rec : SVal → SVal → Bool) (key : String)
    (cv : SVal) (fields : List (String × SVal)) (v : SVal) : Bool :=
  match key with
  | "type" =>
    match cv with
    | .str t => typeMatches t v
    | .arr ts => ts.any (fun t => match t with | .str t => typeMatches t v | _ => false)
    | _ => true
  | "enum" =>
    match cv with
    | .arr l => l.any (fun e => jsonEq e v)
    | _ => true
  | "const" => jsonEq cv v
  | "minimum" =>
    match asQ cv, asQ v with
    | some m, some x => decide (m ≤ x)
    | _, _ => true
  | "maximum" =>
    match asQ cv, asQ v with
    | some m, some x => decide (x ≤ m)
    | _, _ => true
  | "exclusiveMinimum" =>
    match asQ cv, asQ v with
    | some m, some x => decide (m < x)
    | _, _ => true
  | "exclusiveMaximum" =>
    match asQ cv, asQ v with
    | some m, some x => decide (x < m)
    | _, _ => true
  | "multipleOf" =>
    match asQ cv, asQ v with
    | some m, some x => if m == 0 then true else (x / m).den == 1
    | _, _ => true
  | "minLength" =>
    match cv, v with
    | .int n, .str s => decide (n ≤ (s.length : Int))
    | _, _ => true
  | "maxLength" =>
    match cv, v with
    | .int n, .str s => decide ((s.length : Int) ≤ n)
    | _, _ => true
  | "pattern" =>
    match cv, v with
    | .str p, .str s => c.search p s
    | _, _ => true
  | "format" =>
    match cv, v with
    | .str f, .str s =>
      match c.fmt f with
      | some chk => chk s
      | none => false
    | _, _ => true
  | "items" =>
    match v with
    | .arr elems =>
      match cv with
      | .obj _ => elems.all (fun e => rec cv e)
      | .bool _ => elems.all (fun e => rec cv e)
      | .arr its => itemsPositional rec its elems
      | _ => true
    | _ => true
  | "additionalItems" =>
    match lookupKey "items" fields, v with
    | some (.arr its), .arr elems =>
      let extra := elems.drop its.length
      match cv with
      | .bool b => b || extra.isEmpty
      | .obj _ => extra.all (fun e => rec cv e)
      | _ => true
    | _, _ => true
  | "uniqueItems" =>
    match cv, v with
    | .bool true, .arr elems => pairwiseDistinct elems
    | _, _ => true
  | "minItems" =>
    match cv, v with
    | .int n, .arr elems => decide (n ≤ (elems.length : Int))
    | _, _ => true
  | "maxItems" =>
    match cv, v with
    | .int n, .arr elems => decide ((elems.length : Int) ≤ n)
    | _, _ => true
  | "contains" =>
    match v with
    | .arr elems => elems.any (fun e => rec cv e)
    | _ => true
  | "properties" =>
    match cv, v with
    | .obj props, .obj m =>
      props.all (fun kv =>
        match lookupKey kv.1 m with
        | none => true
        | some x => rec kv.2 x)
    | _, _ => true
  | "required" =>
    match cv, v with
    | .arr ks, .obj m =>
      ks.all (fun k => match k with | .str k => hasKey k m | _ => true)
    | _, _ => true
  | "additionalProperties" =>
    match v with
    | .obj m =>
      let declared := match lookupKey "properties" fields with
        | some (.obj props) => keysOf props
        | _ => []
      let extra := m.filter (fun kv => !(declared.contains kv.1))
      match cv with
      | .bool b => b || extra.isEmpty
      | .obj _ => extra.all (fun kv => rec cv kv.2)
      | _ => true
    | _ => true
  | "patternProperties" =>
    match cv, v with
    | .obj pats, .obj m =>
      pats.all (fun ps => m.all (fun kv => !(c.search ps.1 kv.1) || rec ps.2 kv.2))
    | _, _ => true
  | "propertyNames" =>
    match v with
    | .obj m => m.all (fun kv => rec cv (.str kv.1))
    | _ => true
  | "minProperties" =>
    match cv, v with
    | .int n, .obj m => decide (n ≤ (m.length : Int))
    | _, _ => true
  | "maxProperties" =>
    match cv, v with
    | .int n, .obj m => decide ((m.length : Int) ≤ n)
    | _, _ => true
  | "allOf" =>
    match cv with
    | .arr ss => ss.all (fun s => rec s v)
    | _ => true
  | "anyOf" =>
    match cv with
    | .arr ss => ss.any (fun s => rec s v)
    | _ => true
  | "oneOf" =>
    match cv with
    | .arr ss => (ss.countP (fun s => rec s v)) == 1
    | _ => true
  | "not" => !(rec cv v)
  | _ => true

/-- Modelled from the spec: the ValidationEngine (spec section 4.3), by
nesting depth. An empty or non-object document always passes (item 1); an
object document passes when every clause passes (fail-fast over a finite
conjunction is observationally the conjunction itself). The fuel bounds the
nesting depth of the documents the engine can settle; every document in the
claims is settled far below the default depth. -/
def validateF (c : Collabs) : Nat → SVal → SVal → Bool
  | 0, _, _ => false
  | Nat.succ n, .obj fields, v =>
    fields.all (fun kv => checkClause c (validateF c n) kv.1 kv.2 fields v)
  | Nat.succ _, _, _ => true

/-- The engine at the default depth. -/
def validate (c : Collabs) (s v : SVal) : Bool :=
  validateF c 100 s v

/-- The validate_object hook in the argument order of the source
(object first, schema second). -/
def validateObj (c : Collabs) (object schema : SVal) : Bool :=
  validate c schema object

/-- A collaborator instance with no recognized formats and a search that
never matches; the claims touching the engine concretely use documents with
no pattern clause, so the choice is irrelevant there. -/
def c0 : Collabs :=
  { fmt := fun _ => none, search := fun _ _ => false }

/-- The error outcomes the embedding distinguishes. The source raises
jsonschema.ValidationError for both instance validation and meta-schema
validation failures; TypeError and IndexError come from the Python runtime. -/
inductive PyErr : Type where
  | validationError : PyErr
  | typeError : PyErr
  | indexError : PyErr
deriving DecidableEq

/-- A materialized type descriptor: the class name, the merged schema
document (the _schema attribute after _SchemaMeta.new), and whether the
class descends from _NoTitle (suppressing its name in compositions). -/
structure TypeD where
  name : String
  schema : List (String × SVal)
  noTitle : Bool

/-- _SchemaMeta.new (base.py lines 129 to 141): the class is built, its
_schema is folded with dict update along the reversed method resolution
order, the keyword schema is folded in last, and the validate_type hook
(jsonschema meta-schema validation, the external collaborator mv) runs on
the result, raising on an invalid document. A type is returned only when
the hook passes. -/
def schemaMetaNew (mv : SVal → Bool) (name : String)
    (mroSchemas : List (List (String × SVal))) (kwargs : List (String × SVal))
    (noTitle : Bool) : Except PyErr TypeD :=
  if mv (.obj (schemaUpdate (mroSchemas.foldl schemaUpdate []) kwargs)) then
    .ok ⟨name, schemaUpdate (mroSchemas.foldl schemaUpdate []) kwargs, noTitle⟩
  else .error .validationError

/-- _SchemaMeta.create (base.py lines 143 to 159): a new type with the cls
as single base and a deep copy of its schema as the class-dict _schema, so
the reversed resolution order contributes the cls schema twice before the
keyword schema. The new class inherits the _NoTitle flag of its base. -/
def createT (mv : SVal → Bool) (cls : TypeD) (name : String)
    (kwargs : List (String × SVal)) : Except PyErr TypeD :=
  schemaMetaNew mv name [cls.schema, cls.schema] kwargs cls.noTitle

/-- _construct_title (base.py lines 323 to 326): the empty string for
_NoTitle classes, else the title entry of the schema, else the class name.
A non-string title never occurs in the library. -/
def constructTitle (cls : TypeD) : String :=
  if cls.noTitle then ""
  else match lookupKey "title" cls.schema with
    | some (.str t) => t
    | _ => cls.name

/-- _SchemaMeta.add, the + operator (base.py lines 169 to 174):
cls.create with the concatenated titles and the schema of the right
operand as keyword schema. The context keyword is popped by the metaclass
before the schema update and never reaches the document. -/
def addT (mv : SVal → Bool) (a b : TypeD) : Except PyErr TypeD :=
  createT mv a (constructTitle a ++ constructTitle b) b.schema

/-- _lower_key (base.py lines 298 to 299): first character lowercased,
dashes removed. -/
def lowerKey (s : String) : String :=
  match s.data with
  | [] => ""
  | ch :: rest => String.mk ((ch.toLower :: rest).filter (fun c => !(c == '-')))

/-- _ConstType.getitem, the bracket operator of constant modifier types
(base.py lines 224 to 231): cls.create with the lower-camel form of the
class name as the single constraint key. x is the bracket argument already
resolved through _get_schema_from_typeish (scalars stay themselves, types
contribute their schema, tuples become lists). -/
def constGetItem (mv : SVal → Bool) (cls : TypeD) (x : SVal) : Except PyErr TypeD :=
  createT mv cls cls.name [(lowerKey cls.name, x)]

/-- The Trait base descriptor: empty schema (base.py lines 329 to 334). -/
def TraitT : TypeD := ⟨"Trait", [], false⟩

/-- _ContainerType.getitem (base.py lines 236 to 243): cls + a fresh
Trait.create named by the lower-camel schema key carrying the resolved
bracket argument under that key. The two reassignments of the local named
object in the dict and tuple branches are dead stores: the returned value
always uses the resolved schema. -/
def containerGetItem (mv : SVal → Bool) (cls : TypeD) (x : SVal) : Except PyErr TypeD := do
  let t ← createT mv TraitT (lowerKey cls.name) [(lowerKey cls.name, x)]
  addT mv cls t

/-- Integer (base.py lines 515 to 538). -/
def IntegerT : TypeD := ⟨"Integer", [("type", .str "integer")], false⟩

/-- Float (base.py lines 541 to 567). -/
def FloatT : TypeD := ⟨"Float", [("type", .str "number")], false⟩

/-- String (base.py lines 761 to 783). -/
def StringT : TypeD := ⟨"String", [("type", .str "string")], false⟩

/-- Bool (base.py lines 437 to 459). -/
def BoolT : TypeD := ⟨"Bool", [("type", .str "boolean")], false⟩

/-- Null (base.py lines 462 to 480). -/
def NullT : TypeD := ⟨"Null", [("type", .str "null")], false⟩

/-- Dict (base.py lines 637 to 690). -/
def DictT : TypeD := ⟨"Dict", [("type", .str "object")], false⟩

/-- List (base.py lines 830 to 911). -/
def ListT : TypeD := ⟨"List", [("type", .str "array")], false⟩

/-- ExclusiveMinimum (base.py lines 578 to 579): a constant modifier type
with an empty merged schema; not _NoTitle. -/
def ExclusiveMinimumT : TypeD := ⟨"ExclusiveMinimum", [], false⟩

/-- ExclusiveMaximum (base.py lines 586 to 587). -/
def ExclusiveMaximumT : TypeD := ⟨"ExclusiveMaximum", [], false⟩

/-- Items (base.py lines 960 to 961): a container modifier type, _NoTitle. -/
def ItemsT : TypeD := ⟨"Items", [], true⟩

/-- _NumericSchema.gt (base.py lines 493 to 495): cls + ExclusiveMinimum
of the operand. Python evaluates 10 < Integer by reflection as the gt of
Integer applied to 10, so the reversed comparison lands here and yields the
mirrored constraint. -/
def numGT (mv : SVal → Bool) (cls : TypeD) (x : SVal) : Except PyErr TypeD := do
  addT mv cls (← constGetItem mv ExclusiveMinimumT x)

/-- _NumericSchema.lt (base.py lines 501 to 503): cls + ExclusiveMaximum
of the operand. -/
def numLT (mv : SVal → Bool) (cls : TypeD) (x : SVal) : Except PyErr TypeD := do
  addT mv cls (← constGetItem mv ExclusiveMaximumT x)

/-- _ListSchema.getitem for a single non-tuple argument (base.py lines 811
to 816): cls + Items of the resolved argument. -/
def listGetItem (mv : SVal → Bool) (cls : TypeD) (x : SVal) : Except PyErr TypeD := do
  addT mv cls (← containerGetItem mv ItemsT x)

/-- A meta-schema collaborator that accepts every document. The draft 7
meta-schema accepts all the concrete documents appearing in the scenario
claims, so the scenario statements instantiate the hook with it. -/
def mvTrue : SVal → Bool := fun _ => true

/-- The schema of a descriptor as a JSON value. -/
def toSchema (t : TypeD) : SVal := .obj t.schema

/-- The bounded scenario type of claim C5: (10 < Integer) < 100, that is
ExclusiveMinimum then ExclusiveMaximum folded onto Integer. -/
def boundedT (mv : SVal → Bool) : Except PyErr TypeD := do
  numLT mv (← numGT mv IntegerT (.int 10)) (.int 100)

/-- The properties entry of a document as an association list, the empty
list when absent (self._schema.get applied to properties, base.py 680);
meta-valid documents carry an object there. -/
def dictProps (schema : List (String × SVal)) : List (String × SVal) :=
  match lookupKey "properties" schema with
  | some (.obj p) => p
  | _ => []

/-- Dict.setitem (base.py lines 678 to 685): when the key is a declared
property, the hook validates only the new value against that property
sub-schema; otherwise it validates the single-entry mapping of key to value
against the full schema with required replaced by the empty list. The store
write happens only after the hook returns; the hook raises on failure, so
on failure the pair carries the untouched store. -/
def dictSetItem (hook : SVal → SVal → Bool) (schema store : List (String × SVal))
    (key : String) (v : SVal) : Option PyErr × List (String × SVal) :=
  let props := dictProps schema
  if hasKey key props then
    if hook v ((lookupKey key props).getD (.obj [])) then (none, setKey store (key, v))
    else (some .validationError, store)
  else
    if hook (.obj [(key, v)]) (.obj (schemaUpdate schema [("required", .arr [])])) then
      (none, setKey store (key, v))
    else (some .validationError, store)

/-- The id argument of List._verify_item: an integer index or a slice. -/
inductive PyId : Type where
  | idx : Int → PyId
  | slice : Int → Int → PyId

/-- Python list indexing with negative indices; IndexError out of range. -/
def pyIndex (l : List SVal) (n : Int) : Except PyErr SVal :=
  let i : Int := if n < 0 then n + l.length else n
  if i < 0 then .error .indexError
  else
    match l.get? i.toNat with
    | some x => .ok x
    | none => .error .indexError

/-- One bound of a Python slice, clamped into the list. -/
def pySliceClamp (len : Nat) (i : Int) : Nat :=
  if i < 0 then ((len : Int) + i).toNat else min i.toNat len

/-- Python list slicing with step one. -/
def pySlice (l : List SVal) (a b : Int) : List SVal :=
  (l.take (pySliceClamp l.length b)).drop (pySliceClamp l.length a)

/-- Python list.insert: negative targets count from the end, out-of-range
targets clamp to the ends. -/
def pyInsert (l : List SVal) (i : Int) (x : SVal) : List SVal :=
  let j : Nat := if i < 0 then ((l.length : Int) + i).toNat else min i.toNat l.length
  (l.take j) ++ x :: (l.drop j)

/-- Remove the element at a (already normalized) position. -/
def removeAt : List SVal → Nat → Option (List SVal × SVal)
  | [], _ => none
  | x :: xs, 0 => some (xs, x)
  | x :: xs, Nat.succ n =>
    match removeAt xs n with
    | some (ys, e) => some (x :: ys, e)
    | none => none

/-- Python list.pop at a possibly negative index; IndexError out of range. -/
def popAt (l : List SVal) (n : Int) : Except PyErr (List SVal × SVal) :=
  let i : Int := if n < 0 then n + l.length else n
  if i < 0 then .error .indexError
  else
    match removeAt l i.toNat with
    | some r => .ok r
    | none => .error .indexError

/-- The CPython built-in list.pop: signature pop with a single optional
index argument. Passing more than one argument, or a non-integer index, is
a TypeError before anything is removed. -/
def builtinListPop (self : List SVal) (args : List SVal) : Except PyErr (List SVal × SVal) :=
  match args with
  | [] => popAt self (-1)
  | [a] =>
    match a with
    | .int n => popAt self n
    | _ => .error .typeError
  | _ => .error .typeError

/-- Tuple (base.py lines 928 to 949): same schema as List. -/
def TupleT : TypeD := ⟨"Tuple", [("type", .str "array")], false⟩

/-- List._verify_item (base.py lines 867 to 887): no check when the schema
has no truthy items entry; a dict-shaped items entry checks the object
against it (for a slice id, through the freshly created List of items
type); a list-shaped items entry checks positionally at an integer id
(Python indexing of the items list, so an out-of-range id is an
IndexError) and through a fresh Tuple type for a slice id. mv is the
meta-schema hook consumed when the slice branches create types. -/
def wlistVerifyItem (mv : SVal → Bool) (c : Collabs) (schema : List (String × SVal))
    (object : SVal) (id : PyId) : Option PyErr :=
  match lookupKey "items" schema with
  | none => none
  | some items =>
    if isFalsy items then none
    else
      match items with
      | .obj _ =>
        match id with
        | .slice _ _ =>
          match listGetItem mv ListT items with
          | .error e => some e
          | .ok t => if validate c (.obj t.schema) object then none else some .validationError
        | .idx _ => if validate c items object then none else some .validationError
      | .arr its =>
        match id with
        | .slice a b =>
          match (do addT mv TupleT (← containerGetItem mv ItemsT (.arr (pySlice its a b)))) with
          | .error e => some e
          | .ok t => if validate c (.obj t.schema) object then none else some .validationError
        | .idx n =>
          match pyIndex its n with
          | .error e => some e
          | .ok sub => if validate c sub object then none else some .validationError
      | _ => none

/-- wtypes List.append (base.py lines 893 to 895): verify the item at id
len(self) + 1, then list.append; the verification raises before the commit,
so on failure the pair carries the untouched list. -/
def wlistAppend (mv : SVal → Bool) (c : Collabs) (schema : List (String × SVal))
    (self : List SVal) (v : SVal) : Option PyErr × List SVal :=
  match wlistVerifyItem mv c schema v (.idx ((self.length : Int) + 1)) with
  | some e => (some e, self)
  | none => (none, self ++ [v])

/-- wtypes List.insert (base.py lines 897 to 899): verify the item at the
target id, then list.insert. -/
def wlistInsert (mv : SVal → Bool) (c : Collabs) (schema : List (String × SVal))
    (self : List SVal) (id : Int) (v : SVal) : Option PyErr × List SVal :=
  match wlistVerifyItem mv c schema v (.idx id) with
  | some e => (some e, self)
  | none => (none, pyInsert self id v)

/-- The body of wtypes List.pop after the removal (base.py lines 908 to
911): revalidate the whole remaining list against the own schema, and on
failure reinsert the removed value at index through the guarded insert; the
except block does not re-raise, and the method has no return statement, so
the returned value slot is none on every path. The result triple is the
raised error if any, the list afterwards, and the returned value. -/
def wlistPopGuard (mv : SVal → Bool) (c : Collabs) (schema : List (String × SVal))
    (index : Int) (rest : List SVal) (value : SVal) :
    Option PyErr × List SVal × Option SVal :=
  if validate c (.obj schema) (.arr rest) then (none, rest, none)
  else
    match wlistInsert mv c schema rest index value with
    | (some e, st) => (some e, st, none)
    | (none, st) => (none, st, none)

/-- wtypes List.pop (base.py lines 906 to 911): the body first evaluates
super().pop(index, default), forwarding both the index and the default
argument to the one-argument builtin list.pop, then runs the revalidation
guard on the removal result. -/
def wlistPop (mv : SVal → Bool) (c : Collabs) (schema : List (String × SVal))
    (self : List SVal) (index : Int) (default : SVal) :
    Option PyErr × List SVal × Option SVal :=
  match builtinListPop self [.int index, default] with
  | .error e => (some e, self, none)
  | .ok (rest, value) => wlistPopGuard mv c schema index rest value

/-- The class kinds Trait.new dispatches on (base.py lines 355 to 364):
plain value classes, and the redispatching branch for _ConstType classes
and Tuple subclasses. The dataclass branch of Trait.new is bypassed by
every dataclass of the library, because DataClass overrides new
(dataclass.py lines 20 to 24); that path is modelled by dataClassNew. -/
inductive ClsKind : Type where
  | plain : ClsKind
  | constOrTuple : ClsKind

/-- _object_to_webtype (base.py lines 302 to 320) restricted to JSON
values: the schema of the base type matching the runtime shape of the
value (mappings to Dict, strings to String, sequences to List, booleans to
Bool, numbers to Float, none to Null). -/
def shapeSchema : SVal → List (String × SVal)
  | .obj _ => DictT.schema
  | .str _ => StringT.schema
  | .arr _ => ListT.schema
  | .bool _ => BoolT.schema
  | .int _ => FloatT.schema
  | .num _ => FloatT.schema
  | .null => NullT.schema

/-- Trait.new with one positional value (base.py lines 336 to 365): the
value is validated against the class schema first; the plain branch then
builds the instance around the same value, and the _ConstType or Tuple
branch redispatches construction through the base type matching the value
shape, which validates the value once more against that base schema.
Non-validation failures of the surrounding runtime (argument arity of
object.new) are outside the modelled claims and not represented. -/
def traitNew (val : SVal → SVal → Bool) (kind : ClsKind)
    (schema : List (String × SVal)) (v : SVal) : Except PyErr SVal :=
  if val v (.obj schema) then
    match kind with
    | .plain => .ok v
    | .constOrTuple =>
      if val v (.obj (shapeSchema v)) then .ok v else .error .validationError
  else .error .validationError

/-- _SchemaMeta.instancecheck (base.py lines 209 to 213): the probe form;
cls.validate returns on success and raises on failure, and the bare except
turns any failure into false, so the probe is exactly the hook verdict. -/
def instanceCheck (val : SVal → SVal → Bool) (schema : List (String × SVal))
    (v : SVal) : Bool :=
  val v (.obj schema)

/-- DataClass.setattr (dataclass.py lines 30 to 46): a mapping argument is
first narrowed to its entry under the attribute name (defaulting to none);
then, exactly like Dict.setitem, a declared property validates only the
new value against the property sub-schema and any other key validates the
single-entry mapping against the schema with required emptied. -/
def dataClassSetattr (hook : SVal → SVal → Bool) (schema : List (String × SVal))
    (self : List (String × SVal)) (key : String) (v : SVal) :
    Option PyErr × List (String × SVal) :=
  let v := match v with | .obj m => (lookupKey key m).getD .null | x => x
  let props := dictProps schema
  if hasKey key props then
    if hook v ((lookupKey key props).getD (.obj [])) then (none, setKey self (key, v))
    else (some .validationError, self)
  else
    if hook (.obj [(key, v)]) (.obj (schemaUpdate schema [("required", .arr [])])) then
      (none, setKey self (key, v))
    else (some .validationError, self)

/-- Binding the declared fields one after the other through setattr, as the
dataclass generated init does. -/
def setattrFold (hook : SVal → SVal → Bool) (schema : List (String × SVal)) :
    List (String × SVal) → List (String × SVal) → Except PyErr (List (String × SVal))
  | self, [] => .ok self
  | self, (k, v) :: rest =>
    match dataClassSetattr hook schema self k v with
    | (some e, _) => .error e
    | (none, self2) => setattrFold hook schema self2 rest

/-- DataClass.new (dataclass.py lines 20 to 24): object.new, then the
dataclass generated init binds each declared field positionally, each
binding passing through DataClass.setattr; no whole-value validation ever
runs. fields lists the declared field names in order; a positional
argument count other than the field count is a TypeError of the generated
init. -/
def dataClassNew (hook : SVal → SVal → Bool) (schema : List (String × SVal))
    (fields : List String) (args : List SVal) : Except PyErr (List (String × SVal)) :=
  if args.length == fields.length then
    setattrFold hook schema [] (fields.zip args)
  else .error .typeError

/-- Structural de-duplication keeping first occurrences, with the already
seen values accumulated. -/
def dedupJsonAux : List SVal → List SVal → List SVal
  | _, [] => []
  | seen, x :: xs =>
    if seen.any (fun y => jsonEq x y) then dedupJsonAux seen xs
    else x :: dedupJsonAux (x :: seen) xs

/-- Structural de-duplication keeping first occurrences. -/
def dedupJson (l : List SVal) : List SVal :=
  dedupJsonAux [] l

/-- Modelled from the spec: the per-key value combination of the merge rule
as the spec states it (section 4.1, add), parameterized over the recursive
document merge: scalar keys overwrite, the properties key merges
recursively per-key, the required key concatenates the two lists and
de-duplicates, combinator keys concatenate their lists. -/
def specMergeVal
    (recm : List (String × SVal) → List (String × SVal) → List (String × SVal))
    (k : String) (old new : SVal) : SVal :=
  if k == "properties" then
    match old, new with
    | .obj o, .obj m =>
      .obj (m.foldl (fun acc kv =>
        match lookupKey kv.1 acc, kv.2 with
        | some (.obj oldSub), .obj newSub => setKey acc (kv.1, .obj (recm oldSub newSub))
        | _, _ => setKey acc kv) o)
    | _, _ => new
  else if k == "required" then
    match old, new with
    | .arr a, .arr b => .arr (dedupJson (a ++ b))
    | _, _ => new
  else if k == "allOf" || k == "anyOf" || k == "oneOf" then
    match old, new with
    | .arr a, .arr b => .arr (a ++ b)
    | _, _ => new
  else new

/-- One key folded into the accumulated document under the spec merge
rule. -/
def specSetKey
    (recm : List (String × SVal) → List (String × SVal) → List (String × SVal))
    (acc : List (String × SVal)) (kv : String × SVal) : List (String × SVal) :=
  match lookupKey kv.1 acc with
  | none => acc ++ [kv]
  | some old =>
    acc.map (fun x => if x.1 = kv.1 then (x.1, specMergeVal recm kv.1 old kv.2) else x)

/-- Modelled from the spec, for comparison with the source merge: the
key-wise merge rule as the spec states it (section 4.1, add), by nesting
depth. -/
def specMergeF : Nat → List (String × SVal) → List (String × SVal) → List (String × SVal)
  | 0, a, _ => a
  | Nat.succ n, a, b => b.foldl (fun acc kv => specSetKey (specMergeF n) acc kv) a

/-- The spec-side merge at the default depth. -/
def specMergeKeywise (a b : List (String × SVal)) : List (String × SVal) :=
  specMergeF 100 a b

/-- A concrete object descriptor: type object, one declared property a of
integer type, required a, and an allOf list with one sub-document. -/
def A6 : TypeD :=
  ⟨"A", [("type", .str "object"),
    ("properties", .obj [("a", .obj [("type", .str "integer")])]),
    ("required", .arr [.str "a"]),
    ("allOf", .arr [.obj [("minProperties", .int 1)]])], false⟩

/-- A second concrete object descriptor with a disjoint property b, its own
required list and its own allOf list. -/
def B6 : TypeD :=
  ⟨"B", [("properties", .obj [("b", .obj [("type", .str "string")])]),
    ("required", .arr [.str "b"]),
    ("allOf", .arr [.obj [("maxProperties", .int 5)]])], false⟩

/-- The schema document produced by adding B6 onto A6 (empty on the
unreachable error branch). -/
def c6AddSchema : List (String × SVal) :=
  match addT mvTrue A6 B6 with
  | .ok t => t.schema
  | .error _ => []

/-- The schema of the record type q declared as class q of DataClass with
the single annotated field a of int type (dataclass.py lines 9 to 11;
properties and required are computed by _Object.init_subclass,
base.py lines 613 to 629). -/
def qSchema : List (String × SVal) :=
  [("type", .str "object"),
   ("properties", .obj [("a", .obj [("type", .str "integer")])]),
   ("required", .arr [.str "a"])]

/-- A meta-schema collaborator accepting exactly the object documents; used
to instantiate hypotheses at a concrete collaborator. -/
def mvObjOnly : SVal → Bool :=
  fun s => match s with | .obj _ => true | _ => false

/-- First-hit choice on optional lookups (the value from the first list
when present, else the value from the second). -/
def orElseO (x y : Option SVal) : Option SVal :=
  match x with
  | some v => some v
  | none => y

/-- A format collaborator that recognizes exactly the email format name
(accepting every string for it) and no other; used to instantiate the
unrecognized-format hypothesis at a concrete collaborator. -/
def cW : Collabs :=
  { fmt := fun n => if n = "email" then some (fun _ => true) else none,
    search := fun _ _ => false }

theorem orElseO_none (x : Option SVal) : orElseO x none = x := by
  cases x <;> rfl

theorem hasKey_iff_mem_keysOf (k : String) (a : List (String × SVal)) :
    hasKey k a = true ↔ k ∈ keysOf a := by
  simp [hasKey, keysOf, List.any_eq_true, List.mem_map, beq_iff_eq]

theorem hasKey_of_mem {k : String} {v : SVal} {a : List (String × SVal)}
    (hm : (k, v) ∈ a) : hasKey k a = true := by
  refine (hasKey_iff_mem_keysOf k a).mpr ?_
  exact List.mem_map.mpr ⟨(k, v), hm, rfl⟩

theorem lookupKey_eq_none_of_not_has {k : String} {a : List (String × SVal)}
    (h : hasKey k a = false) : lookupKey k a = none := by
  induction a with
  | nil => rfl
  | cons x a ih =>
    simp only [hasKey, List.any_cons, Bool.or_eq_false_iff, beq_eq_false_iff_ne] at h
    simp only [lookupKey, if_neg h.1]
    exact ih (by simp [hasKey, h.2])

theorem lookupKey_append (j : String) (a b : List (String × SVal)) :
    lookupKey j (a ++ b) = orElseO (lookupKey j a) (lookupKey j b) := by
  induction a with
  | nil => rfl
  | cons x a ih =>
    simp only [List.cons_append, lookupKey]
    by_cases hx : x.1 = j
    · simp [hx, orElseO]
    · simp [hx, ih]

theorem map_setVal_not_has {k : String} {v : SVal} {a : List (String × SVal)}
    (h : hasKey k a = false) :
    a.map (fun x => if x.1 = k then (x.1, v) else x) = a := by
  induction a with
  | nil => rfl
  | cons x a ih =>
    simp only [hasKey, List.any_cons, Bool.or_eq_false_iff, beq_eq_false_iff_ne] at h
    simp only [List.map_cons, if_neg h.1]
    rw [ih (by simp [hasKey, h.2])]

theorem lookupKey_map_set {k : String} {v : SVal} (j : String)
    (a : List (String × SVal)) (h : hasKey k a = true) :
    lookupKey j (a.map (fun x => if x.1 = k then (x.1, v) else x)) =
      if j = k then some v else lookupKey j a := by
  induction a with
  | nil => simp [hasKey] at h
  | cons x a ih =>
    simp only [List.map_cons, lookupKey]
    by_cases hx : x.1 = k
    · simp only [if_pos hx]
      by_cases hj : x.1 = j
      · simp only [lookupKey, if_pos hj]
        rw [if_pos (by rw [← hj, hx])]
      · simp only [lookupKey, if_neg hj]
        have hjk : ¬ j = k := fun hh => hj (by rw [hx, hh])
        rw [if_neg hjk]
        by_cases ha : hasKey k a = true
        · rw [ih ha, if_neg hjk]
        · rw [map_setVal_not_has (Bool.eq_false_iff.mpr ha)]
    · simp only [if_neg hx]
      have ha : hasKey k a = true := by
        simp only [hasKey, List.any_cons, Bool.or_eq_true] at h
        rcases h with h | h
        · exact absurd (by simpa using h) hx
        · simpa [hasKey] using h
      by_cases hj : x.1 = j
      · simp only [lookupKey, if_pos hj]
        have hjk : ¬ j = k := fun hh => hx (by rw [hj, hh])
        rw [if_neg hjk]
      · simp only [lookupKey, if_neg hj, ih ha]

theorem lookupKey_setKey (j k : String) (v : SVal) (a : List (String × SVal)) :
    lookupKey j (setKey a (k, v)) = if j = k then some v else lookupKey j a := by
  unfold setKey
  by_cases h : hasKey k a = true
  · simp only [if_pos h]
    exact lookupKey_map_set j a h
  · have hf : hasKey k a = false := Bool.eq_false_iff.mpr h
    simp only [hf, Bool.false_eq_true, if_false]
    rw [lookupKey_append]
    by_cases hj : j = k
    · subst hj
      rw [lookupKey_eq_none_of_not_has hf]
      have h1 : lookupKey j [(j, v)] = some v := by
        simp [lookupKey]
      rw [h1, if_pos rfl]
      rfl
    · have hkj : ¬ k = j := fun hh => hj hh.symm
      have h2 : lookupKey j [(k, v)] = none := by
        simp only [lookupKey]
        rw [if_neg hkj]
      rw [h2, orElseO_none, if_neg hj]

theorem setKey_not_has {k : String} {v : SVal} {a : List (String × SVal)}
    (h : hasKey k a = false) : setKey a (k, v) = a ++ [(k, v)] := by
  unfold setKey
  simp [h]

theorem setKey_mem_self {k : String} {v : SVal} {a : List (String × SVal)}
    (hnd : (keysOf a).Nodup) (hm : (k, v) ∈ a) : setKey a (k, v) = a := by
  induction a with
  | nil => cases hm
  | cons x a ih =>
    have hhas : hasKey k (x :: a) = true := hasKey_of_mem hm
    unfold setKey
    simp only [hhas, if_pos]
    simp only [keysOf, List.map_cons, List.nodup_cons] at hnd
    rcases List.mem_cons.mp hm with he | hm2
    · have hx : x.1 = k := by rw [← he]
      have hxv : x = (k, v) := by rw [← he]
      have hka : hasKey k a = false := by
        rcases hh : hasKey k a with _ | _
        · rfl
        · exfalso
          apply hnd.1
          rw [hx]
          exact (hasKey_iff_mem_keysOf k a).mp hh
      simp only [List.map_cons, if_pos hx]
      rw [map_setVal_not_has hka, hxv]
    · have hka : hasKey k a = true := hasKey_of_mem hm2
      have hx : ¬ x.1 = k := by
        intro hh
        apply hnd.1
        rw [hh]
        exact (hasKey_iff_mem_keysOf k a).mp hka
      simp only [List.map_cons, if_neg hx]
      have := ih hnd.2 hm2
      unfold setKey at this
      simp only [hka, if_pos] at this
      rw [this]

theorem hasKey_append (j : String) (a b : List (String × SVal)) :
    hasKey j (a ++ b) = (hasKey j a || hasKey j b) := by
  simp [hasKey, List.any_append]

theorem schemaUpdate_cons (a : List (String × SVal)) (kv : String × SVal)
    (b : List (String × SVal)) :
    schemaUpdate a (kv :: b) = schemaUpdate (setKey a kv) b := rfl

theorem schemaUpdate_subset {a : List (String × SVal)}
    (hnd : (keysOf a).Nodup) :
    ∀ b : List (String × SVal), (∀ kv ∈ b, kv ∈ a) → schemaUpdate a b = a := by
  intro b
  induction b with
  | nil => intro _; rfl
  | cons kv b ih =>
    intro hb
    rw [schemaUpdate_cons]
    have h1 : setKey a kv = a := by
      rcases kv with ⟨k, v⟩
      exact setKey_mem_self hnd (hb _ (List.mem_cons_self _ _))
    rw [h1]
    exact ih (fun x hx => hb x (List.mem_cons_of_mem _ hx))

theorem schemaUpdate_self {a : List (String × SVal)}
    (hnd : (keysOf a).Nodup) : schemaUpdate a a = a :=
  schemaUpdate_subset hnd a (fun _ h => h)

theorem schemaUpdate_disjoint :
    ∀ (b a : List (String × SVal)), (∀ kv ∈ b, hasKey kv.1 a = false) →
      (keysOf b).Nodup → schemaUpdate a b = a ++ b := by
  intro b
  induction b with
  | nil => intro a _ _; simp [schemaUpdate]
  | cons kv b ih =>
    intro a hb hnd
    rw [schemaUpdate_cons]
    rcases kv with ⟨k, v⟩
    rw [setKey_not_has (hb _ (List.mem_cons_self _ _))]
    simp only [keysOf, List.map_cons, List.nodup_cons] at hnd
    have h2 : ∀ kv ∈ b, hasKey kv.1 (a ++ [(k, v)]) = false := by
      intro x hx
      rw [hasKey_append]
      have hxa : hasKey x.1 a = false := hb _ (List.mem_cons_of_mem _ hx)
      have hxk : hasKey x.1 [(k, v)] = false := by
        have hxk1 : ¬ x.1 = k := by
          intro hh
          exact hnd.1 (hh ▸ (List.mem_map.mpr ⟨x, hx, rfl⟩))
        have hkx1 : ¬ k = x.1 := fun hh => hxk1 hh.symm
        simp [hasKey, hkx1]
      rw [hxa, hxk]
      rfl
    rw [ih (a ++ [(k, v)]) h2 hnd.2, List.append_assoc]
    rfl

theorem schemaUpdate_nil_left {b : List (String × SVal)}
    (hnd : (keysOf b).Nodup) : schemaUpdate [] b = b := by
  have := schemaUpdate_disjoint b [] (fun _ _ => rfl) hnd
  simpa using this

theorem lookupKey_schemaUpdate (j : String) :
    ∀ (b a : List (String × SVal)), (keysOf b).Nodup →
      lookupKey j (schemaUpdate a b) = orElseO (lookupKey j b) (lookupKey j a) := by
  intro b
  induction b with
  | nil => intro a _; rfl
  | cons kv b ih =>
    intro a hnd
    rcases kv with ⟨k, v⟩
    simp only [keysOf, List.map_cons, List.nodup_cons] at hnd
    rw [schemaUpdate_cons, ih _ hnd.2, lookupKey_setKey]
    by_cases hj : j = k
    · subst hj
      have hb : hasKey j b = false := by
        rcases hh : hasKey j b with _ | _
        · rfl
        · exact absurd ((hasKey_iff_mem_keysOf j b).mp hh) hnd.1
      rw [lookupKey_eq_none_of_not_has hb]
      simp only [lookupKey, if_pos rfl]
      rfl
    · have hkj : ¬ k = j := fun hh => hj hh.symm
      simp only [lookupKey, if_neg hj]
      rw [if_neg hkj]

theorem schemaMetaNew_ok_mv {mv : SVal → Bool} {name : String}
    {mroSchemas : List (List (String × SVal))} {kwargs : List (String × SVal)}
    {noTitle : Bool} {T : TypeD}
    (h : schemaMetaNew mv name mroSchemas kwargs noTitle = .ok T) :
    mv (.obj T.schema) = true := by
  unfold schemaMetaNew at h
  split at h
  · rename_i hmv
    cases h
    exact hmv
  · exact Except.noConfusion h

theorem addT_ok_schema {mv : SVal → Bool} {a b : TypeD} {T : TypeD}
    (hnd : (keysOf a.schema).Nodup) (h : addT mv a b = .ok T) :
    T.schema = schemaUpdate a.schema b.schema := by
  unfold addT createT schemaMetaNew at h
  split at h
  · cases h
    show schemaUpdate (schemaUpdate (schemaUpdate (schemaUpdate [] a.schema) a.schema) b.schema) [] = _
    rw [schemaUpdate_nil_left hnd, schemaUpdate_self hnd]
    rfl
  · exact Except.noConfusion h

theorem validate_shapeSchema (c : Collabs) (v : SVal) :
    validate c (.obj (shapeSchema v)) v = true := by
  cases v <;> rfl

/-- Claim C1: for every type descriptor that is successfully created, by
class definition (the metaclass constructor), by create, or by the add
composition operator, the merged schema document satisfies the meta-schema
collaborator; when the document fails the collaborator, creation raises
instead of returning a type, so no code path of the base machinery yields a
materialized type with a meta-invalid document. -/
theorem claim1_meta_validity (mv : SVal → Bool) (name : String)
    (mroSchemas : List (List (String × SVal))) (kwargs : List (String × SVal))
    (noTitle : Bool) (A B T : TypeD) :
    (schemaMetaNew mv name mroSchemas kwargs noTitle = .ok T →
      mv (.obj T.schema) = true) ∧
    (createT mv A name kwargs = .ok T → mv (.obj T.schema) = true) ∧
    (addT mv A B = .ok T → mv (.obj T.schema) = true) :=
  ⟨fun h => schemaMetaNew_ok_mv h, fun h => schemaMetaNew_ok_mv h,
   fun h => schemaMetaNew_ok_mv h⟩

/-- Witness for C1: adding String onto Integer under the collaborator that
accepts exactly object documents yields a type whose document the
collaborator indeed accepts. -/
theorem claim1_meta_validity_witness :
    mvObjOnly (.obj [("type", SVal.str "string")]) = true :=
  (claim1_meta_validity mvObjOnly "w" [] [] false IntegerT StringT
    ⟨"IntegerString", [("type", SVal.str "string")], false⟩).2.2 rfl

/-- Claim C2, counterexample: for the record type q with the single
required integer field a, constructing the value 5 succeeds (DataClass
construction validates only per-field, and 5 passes the field sub-schema),
while the probe form rejects 5 against the full object schema; so
construction-time validation and the probe form disagree on this
descriptor and value. -/
theorem claim2_counterexample :
    dataClassNew (validateObj c0) qSchema ["a"] [.int 5] = .ok [("a", .int 5)] ∧
    instanceCheck (validateObj c0) qSchema (.int 5) = false :=
  ⟨rfl, rfl⟩

/-- Claim C2, amended: for every descriptor whose construction goes through
Trait.new (every non-dataclass kind: plain value classes and the
redispatching _ConstType or Tuple classes), construction succeeds without
a ValidationError exactly when the probe form returns true; the
redispatched construction revalidates the value against the base schema of
its own runtime shape, which always passes. -/
theorem claim2_amended (c : Collabs) (kind : ClsKind)
    (schema : List (String × SVal)) (v : SVal) :
    (∃ r, traitNew (validateObj c) kind schema v = .ok r) ↔
      instanceCheck (validateObj c) schema v = true := by
  constructor
  · rintro ⟨r, hr⟩
    unfold traitNew at hr
    split at hr
    · rename_i hcond
      exact hcond
    · exact Except.noConfusion hr
  · intro h
    have h1 : validateObj c v (.obj schema) = true := h
    cases kind with
    | plain => exact ⟨v, by simp [traitNew, h1]⟩
    | constOrTuple =>
      have hs : validateObj c v (.obj (shapeSchema v)) = true :=
        validate_shapeSchema c v
      exact ⟨v, by simp [traitNew, h1, hs]⟩

/-- Claim C5: the type built as 10 < Integer < 100 materializes with the
document carrying type integer, exclusiveMinimum 10 and exclusiveMaximum
100 (the reversed-operand comparison lands on the gt operator and yields
the mirrored constraint), and the engine accepts 50 while rejecting both
10 and 100 against that document. -/
theorem claim5_bounded :
    boundedT mvTrue = .ok ⟨"IntegerExclusiveMinimumExclusiveMaximum",
      [("type", .str "integer"), ("exclusiveMinimum", .int 10),
       ("exclusiveMaximum", .int 100)], false⟩ ∧
    validate c0 (.obj [("type", .str "integer"), ("exclusiveMinimum", .int 10),
      ("exclusiveMaximum", .int 100)]) (.int 50) = true ∧
    validate c0 (.obj [("type", .str "integer"), ("exclusiveMinimum", .int 10),
      ("exclusiveMaximum", .int 100)]) (.int 10) = false ∧
    validate c0 (.obj [("type", .str "integer"), ("exclusiveMinimum", .int 10),
      ("exclusiveMaximum", .int 100)]) (.int 100) = false :=
  ⟨rfl, rfl, rfl, rfl⟩

/-- Claim C9: List bracketed with Integer materializes with the array
document whose items entry is the integer document; appending 1 to the
empty guarded list commits and yields the one-element list, and appending
the string x to that list raises a ValidationError (the element is checked
against the items sub-schema before the commit) and leaves the list
unchanged at length one. -/
theorem claim9_append :
    listGetItem mvTrue ListT (toSchema IntegerT) = .ok ⟨"List",
      [("type", .str "array"), ("items", .obj [("type", .str "integer")])], false⟩ ∧
    wlistAppend mvTrue c0
      [("type", .str "array"), ("items", .obj [("type", .str "integer")])]
      [] (.int 1) = (none, [.int 1]) ∧
    wlistAppend mvTrue c0
      [("type", .str "array"), ("items", .obj [("type", .str "integer")])]
      [.int 1] (.str "x") = (some .validationError, [.int 1]) :=
  ⟨rfl, rfl, rfl⟩

/-- Claim C3: evaluating pop on the guarded integer list holding 1, 2, 3 at
the default index raises a TypeError before anything is removed, because
the body forwards a default argument that the one-argument builtin
list.pop rejects; the rollback and error-reporting path of the claim is
never reached on any input. -/
theorem claim3_pop_type_error :
    wlistPop mvTrue c0
      [("type", .str "array"), ("items", .obj [("type", .str "integer")])]
      [.int 1, .int 2, .int 3] (-1) .null =
      (some .typeError, [.int 1, .int 2, .int 3], none) :=
  rfl

/-- Claim C10: pop never returns the removed element to the caller: the
returned-value slot is none on every path of the method, both in the full
method (where the forwarded default argument makes the builtin call raise
TypeError on every input) and in the post-removal guard on any removal
outcome, whether or not the revalidation succeeds. -/
theorem claim10_pop_returns_none (mv : SVal → Bool) (c : Collabs)
    (schema : List (String × SVal)) (self : List SVal) (index : Int)
    (default rest0 : SVal) (restL : List SVal) :
    (wlistPop mv c schema self index default).2.2 = none ∧
    (wlistPopGuard mv c schema index restL rest0).2.2 = none := by
  constructor
  · rfl
  · unfold wlistPopGuard
    split
    · rfl
    · split
      · rfl
      · rfl

/-- Claim C8: for every string value and every document carrying a format
constraint whose format name the format collaborator does not recognize,
validation fails hard (the format clause is a hard error, not a silent
pass), whatever the other clauses of the document say. -/
theorem claim8_unknown_format (c : Collabs) (f : String) (hf : c.fmt f = none)
    (fields : List (String × SVal)) (hm : ("format", SVal.str f) ∈ fields)
    (s : String) : validate c (.obj fields) (.str s) = false := by
  have hv : validate c (.obj fields) (.str s) =
      fields.all (fun kv => checkClause c (validateF c 99) kv.1 kv.2 fields (.str s)) :=
    rfl
  rw [hv, List.all_eq_false]
  refine ⟨("format", .str f), hm, ?_⟩
  intro hct
  have hc : checkClause c (validateF c 99) "format" (.str f) fields (.str s) =
      (match c.fmt f with | some chk => chk s | none => false) := rfl
  rw [hc, hf] at hct
  exact Bool.noConfusion hct

/-- Witness for C8: the collaborator cW does not recognize the
uri-template format name, and the string document carrying that format
rejects the string abc. -/
theorem claim8_unknown_format_witness :
    validate cW (.obj [("type", SVal.str "string"),
      ("format", SVal.str "uri-template")]) (.str "abc") = false :=
  claim8_unknown_format cW "uri-template" rfl
    [("type", SVal.str "string"), ("format", SVal.str "uri-template")]
    (List.mem_cons_of_mem _ (List.mem_cons_self _ _)) "abc"

/-- Claim C4: the keyed set of a guarded dict validates only the new value
against the declared property sub-schema when the key is declared, and
otherwise the single-entry mapping against the full schema with required
replaced by the empty list; the write commits exactly when that validation
succeeds, the committed store binds the key to the new value and leaves
every other key unchanged, and on failure the store is untouched and the
raised error is the ValidationError. -/
theorem claim4_dict_setitem (hook : SVal → SVal → Bool)
    (schema store : List (String × SVal)) (key : String) (v : SVal) :
    (hasKey key (dictProps schema) = true →
      ((dictSetItem hook schema store key v).1 = none ↔
        hook v ((lookupKey key (dictProps schema)).getD (.obj [])) = true)) ∧
    (hasKey key (dictProps schema) = false →
      ((dictSetItem hook schema store key v).1 = none ↔
        hook (.obj [(key, v)])
          (.obj (schemaUpdate schema [("required", .arr [])])) = true)) ∧
    ((dictSetItem hook schema store key v).1 = none →
      (dictSetItem hook schema store key v).2 = setKey store (key, v) ∧
      lookupKey key (dictSetItem hook schema store key v).2 = some v ∧
      ∀ j, ¬ j = key → lookupKey j (dictSetItem hook schema store key v).2 =
        lookupKey j store) ∧
    (∀ e, (dictSetItem hook schema store key v).1 = some e →
      ((dictSetItem hook schema store key v).2 = store ∧
        e = .validationError)) := by
  unfold dictSetItem
  by_cases hk : hasKey key (dictProps schema) = true
  · rw [if_pos hk]
    by_cases hv : hook v ((lookupKey key (dictProps schema)).getD (.obj [])) = true
    · rw [if_pos hv]
      refine ⟨fun _ => ⟨fun _ => hv, fun _ => rfl⟩, fun hfk => ?_, fun _ => ?_, ?_⟩
      · rw [hfk] at hk
        exact Bool.noConfusion hk
      · refine ⟨rfl, ?_, ?_⟩
        · rw [lookupKey_setKey]
          simp
        · intro j hj
          exact (lookupKey_setKey j key v store).trans (if_neg hj)
      · intro e he
        exact Option.noConfusion he
    · rw [if_neg hv]
      refine ⟨fun _ => ⟨fun hn => Option.noConfusion hn, fun hh => absurd hh hv⟩,
        fun hfk => ?_, fun hn => Option.noConfusion hn, ?_⟩
      · rw [hfk] at hk
        exact Bool.noConfusion hk
      · intro e he
        refine ⟨rfl, ?_⟩
        cases he
        rfl
  · have hkf : hasKey key (dictProps schema) = false := Bool.eq_false_iff.mpr hk
    rw [if_neg hk]
    by_cases hv2 : hook (.obj [(key, v)])
        (.obj (schemaUpdate schema [("required", .arr [])])) = true
    · rw [if_pos hv2]
      refine ⟨fun hfk => absurd hfk hk, fun _ => ⟨fun _ => hv2, fun _ => rfl⟩,
        fun _ => ?_, ?_⟩
      · refine ⟨rfl, ?_, ?_⟩
        · rw [lookupKey_setKey]
          simp
        · intro j hj
          exact (lookupKey_setKey j key v store).trans (if_neg hj)
      · intro e he
        exact Option.noConfusion he
    · rw [if_neg hv2]
      refine ⟨fun hfk => absurd hfk hk,
        fun _ => ⟨fun hn => Option.noConfusion hn, fun hh => absurd hh hv2⟩,
        fun hn => Option.noConfusion hn, ?_⟩
      intro e he
      refine ⟨rfl, ?_⟩
      cases he
      rfl

/-- Witness for C4: a concrete declared-property write: the schema with the
declared integer property a, the empty store, and the value 3; the commit
verdict coincides with the hook verdict on the value against the property
sub-schema. -/
theorem claim4_dict_setitem_witness :
    (dictSetItem (validateObj c0)
      [("type", SVal.str "object"),
       ("properties", SVal.obj [("a", SVal.obj [("type", SVal.str "integer")])])]
      [] "a" (.int 3)).1 = none ↔
      validateObj c0 (.int 3)
        ((lookupKey "a" (dictProps [("type", SVal.str "object"),
          ("properties", SVal.obj [("a", SVal.obj [("type", SVal.str "integer")])])])).getD
          (.obj [])) = true :=
  (claim4_dict_setitem (validateObj c0)
    [("type", SVal.str "object"),
     ("properties", SVal.obj [("a", SVal.obj [("type", SVal.str "integer")])])]
    [] "a" (.int 3)).1 rfl

/-- Claim C6, counterexample: adding B6 onto A6 overwrites the properties,
required and allOf entries wholesale with the B6 values (the a property is
gone, required holds only b, allOf holds only the B6 document), whereas
the merge rule the claim states, applied to the same two documents, keeps
the a property, concatenates required into a then b, and concatenates the
allOf lists; so the merge of add is not the claimed key-wise rule. -/
theorem claim6_counterexample :
    lookupKey "properties" c6AddSchema =
      some (.obj [("b", .obj [("type", .str "string")])]) ∧
    lookupKey "a" (dictProps c6AddSchema) = none ∧
    lookupKey "required" c6AddSchema = some (.arr [.str "b"]) ∧
    lookupKey "allOf" c6AddSchema = some (.arr [.obj [("maxProperties", .int 5)]]) ∧
    lookupKey "a" (dictProps A6.schema) = some (.obj [("type", .str "integer")]) ∧
    lookupKey "a" (dictProps (specMergeKeywise A6.schema B6.schema)) =
      some (.obj [("type", .str "integer")]) ∧
    lookupKey "required" (specMergeKeywise A6.schema B6.schema) =
      some (.arr [.str "a", .str "b"]) ∧
    lookupKey "allOf" (specMergeKeywise A6.schema B6.schema) =
      some (.arr [.obj [("minProperties", .int 1)], .obj [("maxProperties", .int 5)]]) :=
  ⟨rfl, rfl, rfl, rfl, rfl, rfl, rfl, rfl⟩

/-- Claim C6, amended: when add merges the B document into the A document,
the merge is key-wise shallow overwrite for every key: the resulting
document binds each key to the B value when B carries the key and to the A
value otherwise; the properties, required and combinator keys are replaced
wholesale like any other key, with no recursive merge, concatenation or
de-duplication. -/
theorem claim6_amended (mv : SVal → Bool) (A B T : TypeD)
    (ha : (keysOf A.schema).Nodup) (hb : (keysOf B.schema).Nodup)
    (h : addT mv A B = .ok T) (j : String) :
    lookupKey j T.schema = orElseO (lookupKey j B.schema) (lookupKey j A.schema) := by
  rw [addT_ok_schema ha h]
  exact lookupKey_schemaUpdate j B.schema A.schema hb

/-- Witness for C6 amended: the required entry of the A6 plus B6 document
is the B6 value. -/
theorem claim6_amended_witness :
    lookupKey "required" (TypeD.schema ⟨"AB",
      [("type", SVal.str "object"),
       ("properties", SVal.obj [("b", SVal.obj [("type", SVal.str "string")])]),
       ("required", SVal.arr [SVal.str "b"]),
       ("allOf", SVal.arr [SVal.obj [("maxProperties", SVal.int 5)]])], false⟩) =
      orElseO (lookupKey "required" B6.schema) (lookupKey "required" A6.schema) :=
  claim6_amended mvTrue A6 B6 ⟨"AB",
    [("type", SVal.str "object"),
     ("properties", SVal.obj [("b", SVal.obj [("type", SVal.str "string")])]),
     ("required", SVal.arr [SVal.str "b"]),
     ("allOf", SVal.arr [SVal.obj [("maxProperties", SVal.int 5)]])], false⟩
    (by decide) (by decide) rfl "required"

/-- Claim C7: adding a descriptor onto itself is idempotent on the schema
document: the resulting descriptor carries a document equal to the
original one (only the name doubles). -/
theorem claim7_idempotent (mv : SVal → Bool) (A T : TypeD)
    (ha : (keysOf A.schema).Nodup) (h : addT mv A A = .ok T) :
    T.schema = A.schema := by
  rw [addT_ok_schema ha h]
  exact schemaUpdate_self ha

/-- Witness for C7: adding A6 onto itself yields the A6 document again. -/
theorem claim7_idempotent_witness :
    TypeD.schema ⟨"AA", A6.schema, false⟩ = A6.schema :=
  claim7_idempotent mvTrue A6 ⟨"AA", A6.schema, false⟩ (by decide) rfl
